import Mathlib

/-!
Verification of the playback-queue / transport / visualizer core of the
"the-stage-music" audio player, shallowly embedded from `src/App.tsx`
(second `App` component, lines 473-1153) and `src/components/Stage.tsx` /
`src/components/Library.tsx`.

Modelling conventions:
* JS numbers that hold times, durations and color components are modelled
  as `ℚ`; JS array indices as `Int` where the source can produce `-1`.
* `Math.floor(Math.random() * n)` produces exactly the values `0 .. n-1`;
  it is modelled as `rand % n` for an arbitrary `rand : Nat`, which ranges
  over exactly the same set.
* React state updates (`setX`) are modelled as functional record updates on
  `AppState`; within one handler invocation the source only ever reads the
  pre-invocation state (stale closure), which the functional translation
  reproduces.
* Asynchronous best-effort calls to the external stats collaborator and to
  the audio engine are modelled as an effect list returned next to the new
  state; a rejected `play()` only runs a `console.error` logger and hence
  has no state effect.
-/

namespace StageMusic

/-- View enum (src/App.tsx lines 473-478). -/
inductive View where
  | library
  | stage
  | profile
  | search
  deriving Repr, DecidableEq

/-- Track record (src/App.tsx lines 480-491). Optional JS fields are
`Option`-valued. -/
structure Track where
  id : String
  title : String := ""
  artist : String := ""
  bpm : String := ""
  isFavorite : Bool := false
  coverUrl : String := ""
  audioUrl : Option String := none
  storagePath : Option String := none
  accentColor : Option String := none
  deriving Repr, DecidableEq

/-- Side effects issued by the transport handlers towards the audio engine
and the external stats collaborator (supabase `profiles` updates,
src/App.tsx lines 692-708 and 859-877). -/
inductive Effect where
  | enginePlay (src : Option String)
  | enginePause
  | addPlaytime (seconds : ℚ)
  | incrementPlayCount
  deriving Repr, DecidableEq

/-- The React state of the second `App` component that the transport
handlers read and write (src/App.tsx lines 500-517), together with the
`<audio>` element's source binding and engine-side position
(`audioRef.current.src` / `audioRef.current.currentTime`). -/
structure AppState where
  currentView : View
  isShuffle : Bool
  tracks : List Track
  hasSession : Bool
  activeTrackId : Option String
  isPlaying : Bool
  currentTime : ℚ
  duration : ℚ
  currentQueue : List Track
  audioSrc : Option String
  audioCurrentTime : ℚ
  deriving Repr, DecidableEq

/-- JS `Array.prototype.findIndex` on the track id: first matching index,
or `-1` when no member matches (src/App.tsx lines 889 and 915). -/
def jsFindIndex (queue : List Track) (targetId : String) : Int :=
  if queue.findIdx (fun t => t.id == targetId) < queue.length
  then (queue.findIdx (fun t => t.id == targetId) : Int)
  else -1

/-- JS `%` on integers: a remainder carrying the dividend's sign. -/
def jsRem (a b : Int) : Int :=
  if a < 0 then -((-a) % b) else a % b

/-- JS `queue[i].id`: index into the queue, then project the id. Out of
range, JS would throw on the `.id` projection; every use site below is
proved in range, so the default is never produced. -/
def jsGetId (queue : List Track) (i : Int) : String :=
  if i < 0 then "" else (queue.map Track.id).getD i.toNat ""

/-- The next-track-id computation of `handleNext` (src/App.tsx lines
879-893): under shuffle, a random pick among the queue members whose id
differs from the active id (the active id itself when there are none);
otherwise `(findIndex(active) + 1) % length` into the queue. -/
def nextTrackId (isShuffle : Bool) (queue : List Track) (activeTrackId : String)
    (rand : Nat) : String :=
  if isShuffle then
    let otherTracks := queue.filter (fun t => t.id != activeTrackId)
    if h : 0 < otherTracks.length then
      (otherTracks.get ⟨rand % otherTracks.length, Nat.mod_lt rand h⟩).id
    else activeTrackId
  else
    jsGetId queue (jsRem (jsFindIndex queue activeTrackId + 1) queue.length)

/-- The previous-track-id computation of `handlePrevious` (src/App.tsx
lines 905-919): identical shuffle branch; otherwise
`(findIndex(active) - 1 + length) % length` into the queue. -/
def prevTrackId (isShuffle : Bool) (queue : List Track) (activeTrackId : String)
    (rand : Nat) : String :=
  if isShuffle then
    let otherTracks := queue.filter (fun t => t.id != activeTrackId)
    if h : 0 < otherTracks.length then
      (otherTracks.get ⟨rand % otherTracks.length, Nat.mod_lt rand h⟩).id
    else activeTrackId
  else
    jsGetId queue
      (jsRem (jsFindIndex queue activeTrackId - 1 + queue.length) queue.length)

/-- `handleTrackSelect` (src/App.tsx lines 684-713). Sets the queue (given
queue, else the full catalog when no queue exists), resolves the track in
the effective queue, and if it is not already active: binds the engine
source, starts playback optimistically (`setIsPlaying(true)` regardless of
the play promise), and best-effort increments the play count when a session
exists. Always navigates to the stage view except on the not-found early
return. A rejected `play()` runs only `console.error` and changes no
state. -/
def handleTrackSelect (trackId : String) (queue : Option (List Track))
    (s : AppState) : AppState × List Effect :=
  let s1 : AppState :=
    match queue with
    | some q => { s with currentQueue := q }
    | none =>
        if s.currentQueue.length = 0 then { s with currentQueue := s.tracks } else s
  let targetQueue : List Track :=
    match queue with
    | some q => q
    | none => if 0 < s.currentQueue.length then s.currentQueue else s.tracks
  match targetQueue.find? (fun t => t.id == trackId) with
  | none => (s1, [])
  | some track =>
      if s.activeTrackId = some trackId then
        ({ s1 with currentView := View.stage }, [])
      else
        let s2 := { s1 with activeTrackId := some trackId }
        match track.audioUrl with
        | none => ({ s2 with currentView := View.stage }, [])
        | some url =>
            ({ s2 with
                audioSrc := some url,
                isPlaying := true,
                currentView := View.stage },
              Effect.enginePlay (some url) ::
                (if s.hasSession then [Effect.incrementPlayCount] else []))

/-- `togglePlay` (src/App.tsx lines 840-854): no-op without an active
track; otherwise pauses when playing and plays the bound source when
paused, flipping `isPlaying`. -/
def togglePlay (s : AppState) : AppState × List Effect :=
  match s.activeTrackId with
  | none => (s, [])
  | some _ =>
      if s.isPlaying then
        ({ s with isPlaying := false }, [Effect.enginePause])
      else
        ({ s with isPlaying := true }, [Effect.enginePlay s.audioSrc])

/-- `handleNext` (src/App.tsx lines 856-895): early return without an
active track or with an empty queue; otherwise best-effort adds the known
`duration` to the profile's total playtime when a session exists and
`duration > 0`, computes the next id, and selects it (no queue argument). -/
def handleNext (rand : Nat) (s : AppState) : AppState × List Effect :=
  match s.activeTrackId with
  | none => (s, [])
  | some active =>
      if s.currentQueue.length = 0 then (s, [])
      else
        let reports :=
          if s.hasSession ∧ 0 < s.duration then [Effect.addPlaytime s.duration] else []
        let res := handleTrackSelect (nextTrackId s.isShuffle s.currentQueue active rand)
          none s
        (res.1, reports ++ res.2)

/-- `handlePrevious` (src/App.tsx lines 897-921): early return without an
active track or with an empty queue; if the engine position exceeds 3
seconds, resets the engine position to 0 and returns; otherwise computes
the previous id and selects it. No stats call exists in this handler. -/
def handlePrevious (rand : Nat) (s : AppState) : AppState × List Effect :=
  match s.activeTrackId with
  | none => (s, [])
  | some active =>
      if s.currentQueue.length = 0 then (s, [])
      else if 3 < s.audioCurrentTime then
        ({ s with audioCurrentTime := 0 }, [])
      else
        handleTrackSelect (prevTrackId s.isShuffle s.currentQueue active rand) none s

/-- `handleSeek` (src/App.tsx lines 1003-1008): assigns the requested time
to the engine position and to the reported position, with no clamping
anywhere in the handler. -/
def handleSeek (time : ℚ) (s : AppState) : AppState :=
  { s with audioCurrentTime := time, currentTime := time }

/-- `toggleShuffle` (src/App.tsx line 1010). -/
def toggleShuffle (s : AppState) : AppState :=
  { s with isShuffle := !s.isShuffle }

/-- The playtime amounts among a handler's effects, in order. -/
def reportedPlaytime (effs : List Effect) : List ℚ :=
  effs.filterMap fun e =>
    match e with
    | Effect.addPlaytime q => some q
    | _ => none

/-- `progressPercentage` (src/components/Stage.tsx line 154 and
src/components/Library.tsx line 226): `duration ? (currentTime / duration)
* 100 : 0`; a JS number is falsy exactly when it is zero. -/
def progressPercentage (currentTime duration : ℚ) : ℚ :=
  if duration = 0 then 0 else currentTime / duration * 100

/-- JS `%` on (rational) numbers: remainder carrying the dividend's sign,
`a - b * trunc(a / b)`. -/
def jsNumRem (a b : ℚ) : ℚ :=
  if a < 0 then -(-a - b * ((⌊-a / b⌋ : ℤ) : ℚ)) else a - b * ((⌊a / b⌋ : ℤ) : ℚ)

/-- An hsl() fill color as written by the visualizer. -/
structure HslColor where
  h : ℚ
  s : ℚ
  l : ℚ
  deriving Repr, DecidableEq

/-- The per-bar color computation of the visualizer's `draw` loop
(src/components/Stage.tsx lines 103-115): hue shift `(i / displayBins) *
120 - 60` applied to the base hue and wrapped with JS `%`, saturation fixed
at 90, lightness `max(50, baseLightness + 10) + (magnitude / 255) * 30`. -/
def drawBarColor (baseHue baseLightness : ℚ) (i displayBins : ℚ)
    (magnitude : ℚ) : HslColor :=
  let hueShift := i / displayBins * 120 - 60
  let currentHue := jsNumRem (baseHue + hueShift + 360) 360
  let currentLightness := max 50 (baseLightness + 10) + magnitude / 255 * 30
  { h := currentHue, s := 90, l := currentLightness }

/-- Sample tracks used by concrete witnesses and counterexamples. -/
def trackA : Track := { id := "a", audioUrl := some "https-a" }

def trackB : Track := { id := "b", audioUrl := some "https-b" }

def trackC : Track := { id := "c", audioUrl := some "https-c" }

def trackX : Track := { id := "x", audioUrl := some "https-x" }

/-- A running state: queue [a, b, c], active a, 5s of 100s elapsed. -/
def baseState : AppState :=
  { currentView := View.stage
    isShuffle := false
    tracks := [trackA, trackB, trackC]
    hasSession := true
    activeTrackId := some "a"
    isPlaying := true
    currentTime := 5
    duration := 100
    currentQueue := [trackA, trackB, trackC]
    audioSrc := some "https-a"
    audioCurrentTime := 5 }

/-- baseState with only 2s elapsed, so previous() advances. -/
def earlyState : AppState :=
  { baseState with
    currentTime := 2
    audioCurrentTime := 2 }

/-- baseState whose queue was replaced by [a] while track id zz stayed active. -/
def orphanState : AppState :=
  { baseState with
    activeTrackId := some "zz"
    currentQueue := [trackA]
    currentTime := 1
    audioCurrentTime := 1 }

/-- An idle state: nothing selected yet. -/
def idleState : AppState :=
  { currentView := View.library
    isShuffle := false
    tracks := [trackX]
    hasSession := false
    activeTrackId := none
    isPlaying := false
    currentTime := 0
    duration := 0
    currentQueue := []
    audioSrc := none
    audioCurrentTime := 0 }

theorem jsRem_of_nonneg (a : Int) (b : Int) (ha : 0 ≤ a) : jsRem a b = a % b := by
  unfold jsRem
  rw [if_neg (by omega)]

theorem jsRem_range (a : Int) (n : Nat) (hn : 0 < n) (ha : 0 ≤ a) :
    0 ≤ jsRem a n ∧ jsRem a n < n := by
  rw [jsRem_of_nonneg a n ha]
  constructor
  · exact Int.emod_nonneg a (by exact_mod_cast Nat.pos_iff_ne_zero.mp hn)
  · exact Int.emod_lt_of_pos a (by exact_mod_cast hn)

theorem jsRem_neg_one_one : jsRem (-1) 1 = 0 := by decide

theorem jsGetId_get (q : List Track) (j : Nat) (h : j < q.length) :
    jsGetId q (j : Int) = (q.get ⟨j, h⟩).id := by
  unfold jsGetId
  rw [if_neg (by omega)]
  have hm : j < (q.map Track.id).length := by simpa using h
  simp [List.getD_eq_getElem?_getD, Int.toNat_natCast, List.getElem?_eq_getElem hm,
    List.getElem_map]

theorem jsGetId_mem (q : List Track) (i : Int) (h0 : 0 ≤ i) (h : i < (q.length : Int)) :
    jsGetId q i ∈ q.map Track.id := by
  have hj : i.toNat < q.length := by omega
  have : (i.toNat : Int) = i := by omega
  rw [← this, jsGetId_get q i.toNat hj]
  exact List.mem_map_of_mem Track.id (q.get_mem _ _)

theorem jsFindIndex_lt (q : List Track) (a : String) :
    jsFindIndex q a < (q.length : Int) := by
  unfold jsFindIndex
  split
  · next h => exact_mod_cast h
  · omega

theorem jsFindIndex_ge (q : List Track) (a : String) : -1 ≤ jsFindIndex q a := by
  unfold jsFindIndex
  split <;> omega

theorem jsFindIndex_of_mem (q : List Track) (a : String) (h : a ∈ q.map Track.id) :
    jsFindIndex q a = (q.findIdx (fun t => t.id == a) : Int) ∧
      q.findIdx (fun t => t.id == a) < q.length := by
  obtain ⟨t, ht, rfl⟩ := List.mem_map.mp h
  have hlt : q.findIdx (fun t2 => t2.id == t.id) < q.length :=
    List.findIdx_lt_length.mpr ⟨t, ht, by simp⟩
  exact ⟨by unfold jsFindIndex; rw [if_pos hlt], hlt⟩

theorem jsFindIndex_of_not_mem (q : List Track) (a : String)
    (h : a ∉ q.map Track.id) : jsFindIndex q a = -1 := by
  have hall : ∀ t ∈ q, (t.id == a) = false := by
    intro t ht
    simp only [beq_eq_false_iff_ne, ne_eq]
    intro he
    exact h (he ▸ List.mem_map_of_mem Track.id ht)
  unfold jsFindIndex
  rw [List.findIdx_eq_length_of_false hall, if_neg (lt_irrefl _)]

theorem findIdx_of_nodup (q : List Track) (hnd : (q.map Track.id).Nodup)
    (j : Nat) (h : j < q.length) :
    q.findIdx (fun t => t.id == (q.get ⟨j, h⟩).id) = j := by
  rw [List.findIdx_eq h]
  refine ⟨by simp, ?_⟩
  intro k hk
  simp only [beq_eq_false_iff_ne, ne_eq]
  intro he
  have hkq : k < q.length := hk.trans h
  have hkm : k < (q.map Track.id).length := by simpa using hkq
  have hjm : j < (q.map Track.id).length := by simpa using h
  have : (q.map Track.id).get ⟨k, hkm⟩ = (q.map Track.id).get ⟨j, hjm⟩ := by
    simpa [List.getElem_map] using he
  have := (hnd.get_inj_iff.mp this)
  simp only [Fin.mk.injEq] at this
  omega

theorem nextTrackId_mem (sh : Bool) (q : List Track) (a : String) (r : Nat)
    (hq : q ≠ []) : nextTrackId sh q a r ∈ q.map Track.id := by
  have hn : 0 < q.length := List.length_pos.mpr hq
  unfold nextTrackId
  dsimp only
  split
  · -- shuffle branch
    split
    · next h =>
        have hmem : (q.filter (fun t => t.id != a)).get
            ⟨r % (q.filter (fun t => t.id != a)).length, Nat.mod_lt r h⟩ ∈
              q.filter (fun t => t.id != a) := List.get_mem _ _ _
        exact List.mem_map_of_mem Track.id (List.mem_of_mem_filter hmem)
    · next h =>
        obtain ⟨t, ht⟩ := List.exists_mem_of_ne_nil q hq
        have hfil : q.filter (fun t => t.id != a) = [] := by
          cases hfe : q.filter (fun t => t.id != a) with
          | nil => rfl
          | cons x xs => exact absurd (by simp [hfe]) h
        have : (t.id != a) = false := by
          have := List.filter_eq_nil_iff.mp hfil t ht
          simpa using this
        have : t.id = a := by simpa using this
        exact this ▸ List.mem_map_of_mem Track.id ht
  · -- sequential branch
    have hge := jsFindIndex_ge q a
    have hrange := jsRem_range (jsFindIndex q a + 1) q.length hn (by omega)
    exact jsGetId_mem q _ hrange.1 hrange.2

theorem prevTrackId_mem (sh : Bool) (q : List Track) (a : String) (r : Nat)
    (hq : q ≠ []) : prevTrackId sh q a r ∈ q.map Track.id := by
  have hn : 0 < q.length := List.length_pos.mpr hq
  unfold prevTrackId
  dsimp only
  split
  · split
    · next h =>
        have hmem : (q.filter (fun t => t.id != a)).get
            ⟨r % (q.filter (fun t => t.id != a)).length, Nat.mod_lt r h⟩ ∈
              q.filter (fun t => t.id != a) := List.get_mem _ _ _
        exact List.mem_map_of_mem Track.id (List.mem_of_mem_filter hmem)
    · next h =>
        obtain ⟨t, ht⟩ := List.exists_mem_of_ne_nil q hq
        have hfil : q.filter (fun t => t.id != a) = [] := by
          cases hfe : q.filter (fun t => t.id != a) with
          | nil => rfl
          | cons x xs => exact absurd (by simp [hfe]) h
        have hta : (t.id != a) = false := by
          simpa using List.filter_eq_nil_iff.mp hfil t ht
        have : t.id = a := by simpa using hta
        exact this ▸ List.mem_map_of_mem Track.id ht
  · have hge := jsFindIndex_ge q a
    have hlt := jsFindIndex_lt q a
    by_cases hd : 0 ≤ jsFindIndex q a - 1 + q.length
    · have hrange := jsRem_range (jsFindIndex q a - 1 + q.length) q.length hn hd
      exact jsGetId_mem q _ hrange.1 (by omega)
    · have hlen1 : (q.length : Int) = 1 := by omega
      have hdiv : jsFindIndex q a - 1 + (q.length : Int) = -1 := by omega
      rw [hdiv, hlen1, jsRem_neg_one_one]
      exact jsGetId_mem q 0 (by omega) (by omega)

theorem next_prev_id_roundtrip (q : List Track) (a : String) (r r2 : Nat)
    (hnd : (q.map Track.id).Nodup) (hmem : a ∈ q.map Track.id) :
    prevTrackId false q (nextTrackId false q a r) r2 = a := by
  have hq : q ≠ [] := by rintro rfl; simp at hmem
  have hn : 0 < q.length := List.length_pos.mpr hq
  obtain ⟨hjfi, hilt⟩ := jsFindIndex_of_mem q a hmem
  set i := q.findIdx (fun t => t.id == a) with hi
  have hia : (q.get ⟨i, hilt⟩).id = a := by
    have h1 := @List.findIdx_getElem _ (fun t => t.id == a) q hilt
    have h2 : ((q.get ⟨i, hilt⟩).id == a) = true := by
      simpa [List.get_eq_getElem] using h1
    exact beq_iff_eq.mp h2
  have hjlt : (i + 1) % q.length < q.length := Nat.mod_lt _ hn
  have hnext : nextTrackId false q a r = (q.get ⟨(i + 1) % q.length, hjlt⟩).id := by
    unfold nextTrackId
    dsimp only
    rw [if_neg (by simp)]
    rw [hjfi]
    have hcast : jsRem ((i : Int) + 1) q.length = (((i + 1) % q.length : Nat) : Int) := by
      rw [jsRem_of_nonneg _ _ (by omega)]
      push_cast
      rfl
    rw [hcast, jsGetId_get q _ hjlt]
  rw [hnext]
  have hjfi2 : jsFindIndex q ((q.get ⟨(i + 1) % q.length, hjlt⟩).id) =
      (((i + 1) % q.length : Nat) : Int) := by
    obtain ⟨hj2, _⟩ := jsFindIndex_of_mem q ((q.get ⟨(i + 1) % q.length, hjlt⟩).id)
      (List.mem_map_of_mem Track.id (List.get_mem _ _ _))
    rw [hj2, findIdx_of_nodup q hnd ((i + 1) % q.length) hjlt]
  unfold prevTrackId
  dsimp only
  rw [if_neg (by simp), hjfi2]
  have harith : jsRem ((((i + 1) % q.length : Nat) : Int) - 1 + q.length) q.length
      = (i : Int) := by
    rw [jsRem_of_nonneg _ _ (by omega)]
    rcases Nat.lt_or_ge (i + 1) q.length with hlt2 | hge2
    · have hj : (i + 1) % q.length = i + 1 := Nat.mod_eq_of_lt hlt2
      rw [hj]
      have he : ((i + 1 : Nat) : Int) - 1 + q.length = (i : Int) + (q.length : Int) * 1 := by
        push_cast; ring
      rw [he, Int.add_mul_emod_self_left,
        Int.emod_eq_of_lt (by omega) (by exact_mod_cast hilt)]
    · have hieq : i + 1 = q.length := by omega
      have hj : (i + 1) % q.length = 0 := by rw [hieq, Nat.mod_self]
      rw [hj]
      have he : ((0 : Nat) : Int) - 1 + q.length = (q.length : Int) - 1 := by push_cast; ring
      rw [he, Int.emod_eq_of_lt (by omega) (by omega)]
      omega
  rw [harith, jsGetId_get q i hilt]
  exact hia

theorem handleTrackSelect_fields (trackId : String) (s : AppState)
    (hq : s.currentQueue ≠ []) (hmem : trackId ∈ s.currentQueue.map Track.id) :
    ((handleTrackSelect trackId none s).1).activeTrackId = some trackId ∧
    ((handleTrackSelect trackId none s).1).currentQueue = s.currentQueue ∧
    ((handleTrackSelect trackId none s).1).isShuffle = s.isShuffle ∧
    ((handleTrackSelect trackId none s).1).audioCurrentTime = s.audioCurrentTime ∧
    ((handleTrackSelect trackId none s).1).hasSession = s.hasSession ∧
    ((handleTrackSelect trackId none s).1).duration = s.duration ∧
    ((handleTrackSelect trackId none s).1).tracks = s.tracks := by
  have hn : 0 < s.currentQueue.length := List.length_pos.mpr hq
  obtain ⟨t, ht, htid⟩ := List.mem_map.mp hmem
  have hfs : (s.currentQueue.find? (fun t2 => t2.id == trackId)).isSome :=
    List.find?_isSome.mpr ⟨t, ht, by simp [htid]⟩
  obtain ⟨t0, hf⟩ := Option.isSome_iff_exists.mp hfs
  have h0 : ¬(s.currentQueue.length = 0) := by omega
  unfold handleTrackSelect
  dsimp only
  simp only [if_neg h0, if_pos hn, hf]
  by_cases hact : s.activeTrackId = some trackId
  · rw [if_pos hact]
    simp [hact]
  · rw [if_neg hact]
    cases t0.audioUrl <;> simp

theorem reportedPlaytime_select (trackId : String) (queue : Option (List Track))
    (s : AppState) :
    reportedPlaytime (handleTrackSelect trackId queue s).2 = [] := by
  unfold handleTrackSelect
  dsimp only
  cases queue <;>
    · split
      · simp [reportedPlaytime]
      · split
        · simp [reportedPlaytime]
        · split <;> split <;> simp [reportedPlaytime]

/-- C1 counterexample: with queue [a] and active id zz absent from it, non-
shuffle next() and previous() (elapsed 1s) both move the cursor to queue
member a instead of returning the active id zz itself, refuting the claimed
fall-back. -/
theorem next_prev_absent_active_cex :
    ((handleNext 0 orphanState).1).activeTrackId = some "a" ∧
    ((handlePrevious 0 orphanState).1).activeTrackId = some "a" ∧
    orphanState.activeTrackId = some "zz" ∧
    "zz" ∉ orphanState.currentQueue.map Track.id := by decide

/-- C2 counterexample: at a state with 5s elapsed of a 100s track, next()
reports 100 (the full duration) to the stats collaborator, not the elapsed
5s, and previous() at 2s elapsed advances the cursor while reporting
nothing. -/
theorem playtime_report_cex :
    baseState.audioCurrentTime = 5 ∧ baseState.duration = 100 ∧
    reportedPlaytime (handleNext 0 baseState).2 = [100] ∧ (100 : ℚ) ≠ 5 ∧
    earlyState.audioCurrentTime = 2 ∧
    ((handlePrevious 0 earlyState).1).activeTrackId = some "c" ∧
    reportedPlaytime (handlePrevious 0 earlyState).2 = [] := by decide

/-- C3 counterexample: selecting track x (whose source load will fail) leaves
the synchronous controller state with isPlaying = true, not Paused -- the
rejected play() only logs -- so the next togglePlay() issues a pause rather
than a retry. -/
theorem load_failure_cex :
    ((handleTrackSelect "x" (some [trackX]) idleState).1).isPlaying = true ∧
    ((handleTrackSelect "x" (some [trackX]) idleState).1).activeTrackId = some "x" ∧
    (togglePlay (handleTrackSelect "x" (some [trackX]) idleState).1).2 =
      [Effect.enginePause] := by decide

/-- C4 counterexample: seeking to -5 (or to 250 with a 100s duration) reports
exactly the requested time, not the clamp min(max(t, 0), duration). -/
theorem seek_clamp_cex :
    (handleSeek (-5) baseState).currentTime ≠ min (max (-5 : ℚ) 0) baseState.duration ∧
    (handleSeek 250 baseState).currentTime ≠ min (max (250 : ℚ) 0) baseState.duration := by
  decide

/-- C1 (amended): when the active id is absent from a non-empty queue (findIndex
yields -1), non-shuffle next() returns the id of the queue member at index 0
and previous() the id of the member at index (length - 2) % length (index 0
for a singleton queue, by JS remainder semantics); the absent active id
itself is never returned. -/
theorem next_prev_absent_active_amended (q : List Track) (a : String) (r r2 : Nat)
    (hq : q ≠ []) (habs : a ∉ q.map Track.id) :
    nextTrackId false q a r = (q.map Track.id).getD 0 "" ∧
    prevTrackId false q a r2 = (q.map Track.id).getD ((q.length - 2) % q.length) "" ∧
    nextTrackId false q a r ≠ a ∧ prevTrackId false q a r2 ≠ a := by
  have hn : 0 < q.length := List.length_pos.mpr hq
  have hjfi := jsFindIndex_of_not_mem q a habs
  have hne : ∀ x ∈ q.map Track.id, x ≠ a := fun x hx he => habs (he ▸ hx)
  refine ⟨?_, ?_, hne _ (nextTrackId_mem false q a r hq),
    hne _ (prevTrackId_mem false q a r2 hq)⟩
  · unfold nextTrackId
    dsimp only
    rw [if_neg (by simp), hjfi]
    have h0 : jsRem (-1 + 1) q.length = 0 := by
      rw [jsRem_of_nonneg _ _ (by omega)]
      simp
    rw [h0]
    unfold jsGetId
    rw [if_neg (by omega)]
    rfl
  · unfold prevTrackId
    dsimp only
    rw [if_neg (by simp), hjfi]
    rcases Nat.lt_or_ge q.length 2 with h1 | h2
    · have hl1 : q.length = 1 := by omega
      have hc : (-1 - 1 + (q.length : Int)) = -1 := by omega
      rw [hc, hl1]
      rw [show ((1 : Nat) : Int) = 1 from rfl, jsRem_neg_one_one]
      unfold jsGetId
      rw [if_neg (by omega)]
      rfl
    · have hc : (-1 - 1 + (q.length : Int)) = (q.length : Int) - 2 := by omega
      rw [hc, jsRem_of_nonneg _ _ (by omega),
        Int.emod_eq_of_lt (by omega) (by omega)]
      unfold jsGetId
      rw [if_neg (by omega)]
      have ht : ((q.length : Int) - 2).toNat = q.length - 2 := by omega
      rw [ht, Nat.mod_eq_of_lt (by omega)]

/-- Witness: the amended C1 at queue [a, b, c] with absent active id zz. -/
theorem next_prev_absent_active_amended_witness :
    nextTrackId false [trackA, trackB, trackC] "zz" 0 =
      ([trackA, trackB, trackC].map Track.id).getD 0 "" ∧
    prevTrackId false [trackA, trackB, trackC] "zz" 0 =
      ([trackA, trackB, trackC].map Track.id).getD
        (([trackA, trackB, trackC].length - 2) % [trackA, trackB, trackC].length) "" ∧
    nextTrackId false [trackA, trackB, trackC] "zz" 0 ≠ "zz" ∧
    prevTrackId false [trackA, trackB, trackC] "zz" 0 ≠ "zz" :=
  next_prev_absent_active_amended [trackA, trackB, trackC] "zz" 0 0 (by decide) (by decide)

/-- C2 (amended): with an active track and a non-empty queue, next() reports
exactly the known duration when a session exists and duration > 0
(regardless of elapsed time, including 0), and previous() never reports
playtime. -/
theorem playtime_report_amended (r : Nat) (s : AppState) (a : String)
    (ha : s.activeTrackId = some a) (hq : s.currentQueue ≠ []) :
    reportedPlaytime (handleNext r s).2 =
      (if s.hasSession ∧ 0 < s.duration then [s.duration] else []) ∧
    reportedPlaytime (handlePrevious r s).2 = [] := by
  have h0 : ¬(s.currentQueue.length = 0) := by
    have := List.length_pos.mpr hq
    omega
  constructor
  · unfold handleNext
    rw [ha]
    dsimp only
    rw [if_neg h0]
    by_cases hrep : s.hasSession ∧ 0 < s.duration
    · rw [if_pos hrep, if_pos hrep]
      unfold reportedPlaytime at *
      rw [List.filterMap_append]
      have := reportedPlaytime_select (nextTrackId s.isShuffle s.currentQueue a r) none s
      unfold reportedPlaytime at this
      rw [this]
      simp [List.filterMap_cons]
    · rw [if_neg hrep, if_neg hrep]
      unfold reportedPlaytime at *
      rw [List.filterMap_append]
      have := reportedPlaytime_select (nextTrackId s.isShuffle s.currentQueue a r) none s
      unfold reportedPlaytime at this
      rw [this]
      simp
  · unfold handlePrevious
    rw [ha]
    dsimp only
    rw [if_neg h0]
    by_cases h3 : 3 < s.audioCurrentTime
    · rw [if_pos h3]
      rfl
    · rw [if_neg h3]
      exact reportedPlaytime_select _ _ _

/-- Witness: the amended C2 at the running base state. -/
theorem playtime_report_amended_witness :
    reportedPlaytime (handleNext 0 baseState).2 =
      (if baseState.hasSession ∧ 0 < baseState.duration then [baseState.duration]
        else []) ∧
    reportedPlaytime (handlePrevious 0 baseState).2 = [] :=
  playtime_report_amended 0 baseState "a" (by decide) (by decide)

/-- C3 (amended): after selecting a not-yet-active track with a source URL, the
state optimistically shows Playing with the track active and the engine
bound to its URL, whether or not the play attempt later fails (the rejection
handler changes no state); togglePlay() then pauses, and a second
togglePlay() re-issues play() on the same bound source without re-selection. -/
theorem load_failure_retry_amended (s s1 : AppState) (trackId url : String) (q : List Track)
    (t : Track) (hf : q.find? (fun t2 => t2.id == trackId) = some t)
    (hurl : t.audioUrl = some url) (hne : ¬s.activeTrackId = some trackId)
    (hs1 : s1 = (handleTrackSelect trackId (some q) s).1) :
    s1.activeTrackId = some trackId ∧ s1.isPlaying = true ∧ s1.audioSrc = some url ∧
    (togglePlay s1).1.isPlaying = false ∧
    (togglePlay s1).1.activeTrackId = some trackId ∧
    (togglePlay s1).1.audioSrc = some url ∧
    (togglePlay (togglePlay s1).1).1.isPlaying = true ∧
    (togglePlay (togglePlay s1).1).2 = [Effect.enginePlay (some url)] := by
  have hs1e : s1 = { s with
      currentQueue := q, activeTrackId := some trackId,
      audioSrc := some url, isPlaying := true, currentView := View.stage } := by
    rw [hs1]
    unfold handleTrackSelect
    dsimp only
    rw [hf]
    dsimp only
    rw [if_neg hne, hurl]
  subst hs1e
  refine ⟨rfl, rfl, rfl, ?_, ?_, ?_, ?_, ?_⟩ <;>
    · unfold togglePlay
      dsimp only
      rfl

/-- Witness: the amended C3 selecting track x from the idle state. -/
theorem load_failure_retry_amended_witness :
    ((handleTrackSelect "x" (some [trackX]) idleState).1).activeTrackId = some "x" ∧
    ((handleTrackSelect "x" (some [trackX]) idleState).1).isPlaying = true ∧
    ((handleTrackSelect "x" (some [trackX]) idleState).1).audioSrc = some "https-x" ∧
    (togglePlay (handleTrackSelect "x" (some [trackX]) idleState).1).1.isPlaying
      = false ∧
    (togglePlay (handleTrackSelect "x" (some [trackX]) idleState).1).1.activeTrackId
      = some "x" ∧
    (togglePlay (handleTrackSelect "x" (some [trackX]) idleState).1).1.audioSrc
      = some "https-x" ∧
    (togglePlay
      (togglePlay (handleTrackSelect "x" (some [trackX]) idleState).1).1).1.isPlaying
      = true ∧
    (togglePlay
      (togglePlay (handleTrackSelect "x" (some [trackX]) idleState).1).1).2
      = [Effect.enginePlay (some "https-x")] :=
  load_failure_retry_amended idleState _ "x" "https-x" [trackX] trackX (by decide) (by decide)
    (by decide) rfl

/-- C4 (amended): seek(t) optimistically sets the reported position and the
engine position to exactly t, with no clamping in the handler; duration and
the active track are untouched. -/
theorem seek_unclamped_amended (t : ℚ) (s : AppState) :
    (handleSeek t s).currentTime = t ∧ (handleSeek t s).audioCurrentTime = t ∧
    (handleSeek t s).duration = s.duration ∧
    (handleSeek t s).activeTrackId = s.activeTrackId := ⟨rfl, rfl, rfl, rfl⟩

/-- C7: whenever more than 3 seconds have elapsed, previous() leaves the cursor,
the queue, the shuffle flag, the reported position and the duration
unchanged and performs no stats report and no queue advancement; with an
active track and a non-empty queue its only effect is resetting the engine
position to 0. -/
theorem previous_restart_frame (r : Nat) (s : AppState) (h3 : 3 < s.audioCurrentTime) :
    ((handlePrevious r s).1.activeTrackId = s.activeTrackId ∧
      (handlePrevious r s).1.currentQueue = s.currentQueue ∧
      (handlePrevious r s).1.isShuffle = s.isShuffle ∧
      (handlePrevious r s).1.currentTime = s.currentTime ∧
      (handlePrevious r s).1.duration = s.duration ∧
      (handlePrevious r s).2 = []) ∧
    (∀ a, s.activeTrackId = some a → s.currentQueue ≠ [] →
      handlePrevious r s = ({ s with audioCurrentTime := 0 }, [])) := by
  constructor
  · unfold handlePrevious
    cases ha : s.activeTrackId with
    | none => simp [ha]
    | some a =>
        dsimp only
        by_cases h0 : s.currentQueue.length = 0
        · rw [if_pos h0]
          simp [ha]
        · rw [if_neg h0, if_pos h3]
          simp [ha]
  · intro a ha hq
    have h0 : ¬(s.currentQueue.length = 0) := by
      have := List.length_pos.mpr hq
      omega
    unfold handlePrevious
    rw [ha]
    dsimp only
    rw [if_neg h0, if_pos h3]

/-- Witness: C7 at the running base state with 5s elapsed. -/
theorem previous_restart_frame_witness :
    ((handlePrevious 0 baseState).1.activeTrackId = baseState.activeTrackId ∧
      (handlePrevious 0 baseState).1.currentQueue = baseState.currentQueue ∧
      (handlePrevious 0 baseState).1.isShuffle = baseState.isShuffle ∧
      (handlePrevious 0 baseState).1.currentTime = baseState.currentTime ∧
      (handlePrevious 0 baseState).1.duration = baseState.duration ∧
      (handlePrevious 0 baseState).2 = []) ∧
    (∀ a, baseState.activeTrackId = some a → baseState.currentQueue ≠ [] →
      handlePrevious 0 baseState = ({ baseState with audioCurrentTime := 0 }, [])) :=
  previous_restart_frame 0 baseState (by decide)

/-- C8: each rendered bar's hue equals (H + (i/N)*120 - 60 + 360) mod 360 under
JS remainder semantics (hue 210 for H = 210, i = 512, N = 1024), its
saturation is fixed at 90, and its lightness equals max(50, L + 10) +
(magnitude/255)*30. -/
theorem visualizer_bar_color (hue lightness i bins mag : ℚ) :
    (drawBarColor hue lightness i bins mag).h =
      jsNumRem (hue + i / bins * 120 - 60 + 360) 360 ∧
    (drawBarColor hue lightness i bins mag).s = 90 ∧
    (drawBarColor hue lightness i bins mag).l =
      max 50 (lightness + 10) + mag / 255 * 30 ∧
    (drawBarColor 210 lightness 512 1024 mag).h = 210 := by
  refine ⟨?_, rfl, rfl, ?_⟩
  · unfold drawBarColor
    dsimp only
    congr 1
    ring
  · norm_num [drawBarColor, jsNumRem]

/-- C9 counterexample: at position 0 with duration 0 the position equals the
duration yet the progress percentage is 0, not 100, refuting the claimed
unconditional iff. -/
theorem progress_hundred_iff_cex :
    progressPercentage 0 0 = 0 ∧ ¬(progressPercentage 0 0 = 100 ↔ (0 : ℚ) = 0) := by
  refine ⟨rfl, fun h => ?_⟩
  have := h.mpr rfl
  norm_num [progressPercentage] at this

/-- C9 (amended): the progress percentage is 0 whenever the duration is 0
(unknown), and for nonzero duration it equals 100 exactly when the position
equals the duration. -/
theorem progress_percentage_amended (pos dur : ℚ) :
    (dur = 0 → progressPercentage pos dur = 0) ∧
    (dur ≠ 0 → (progressPercentage pos dur = 100 ↔ pos = dur)) := by
  constructor
  · intro h
    simp [progressPercentage, h]
  · intro h
    unfold progressPercentage
    rw [if_neg h, div_mul_eq_mul_div, div_eq_iff h]
    constructor
    · intro h2
      linarith
    · intro h2
      rw [h2]
      ring

/-- Witness: the amended C9 at duration 0 and at position = duration = 5. -/
theorem progress_percentage_amended_witness :
    progressPercentage 7 0 = 0 ∧ progressPercentage 5 5 = 100 :=
  ⟨(progress_percentage_amended 7 0).1 rfl, ((progress_percentage_amended 5 5).2 (by norm_num)).mpr rfl⟩

/-- C5: with shuffle on, for a queue of at least two distinct-id members
containing the active id, next() and previous() never return the current
track id for any outcome of the random choice; for a singleton queue holding
the active track they return it unchanged. -/
theorem shuffle_no_immediate_repeat (q : List Track) (a : String) (r r2 : Nat) :
    (2 ≤ q.length → (q.map Track.id).Nodup → a ∈ q.map Track.id →
      nextTrackId true q a r ≠ a ∧ prevTrackId true q a r2 ≠ a) ∧
    (∀ t : Track, q = [t] → a = t.id →
      nextTrackId true q a r = a ∧ prevTrackId true q a r2 = a) := by
  constructor
  · intro hlen hnd hmem
    have hex : ∃ t ∈ q, (t.id != a) = true := by
      cases q with
      | nil => simp at hlen
      | cons x xs =>
          cases xs with
          | nil => simp at hlen
          | cons y ys =>
              have hxy : x.id ≠ y.id := by
                simp only [List.map_cons, List.nodup_cons, List.mem_cons] at hnd
                exact fun he => hnd.1 (Or.inl he)
              by_cases hxa : x.id = a
              · exact ⟨y, by simp, by simp [← hxa, bne_iff_ne]; exact fun he => hxy he.symm⟩
              · exact ⟨x, by simp, by simpa [bne_iff_ne] using hxa⟩
    have hpos : 0 < (q.filter (fun t => t.id != a)).length := by
      obtain ⟨t, ht, hp⟩ := hex
      exact List.length_pos.mpr
        (List.ne_nil_of_mem (List.mem_filter.mpr ⟨ht, hp⟩))
    constructor
    · unfold nextTrackId
      dsimp only
      rw [if_pos rfl, dif_pos hpos]
      have := (List.mem_filter.mp
        (List.get_mem (q.filter (fun t => t.id != a)) _ (Nat.mod_lt r hpos))).2
      exact bne_iff_ne.mp this
    · unfold prevTrackId
      dsimp only
      rw [if_pos rfl, dif_pos hpos]
      have := (List.mem_filter.mp
        (List.get_mem (q.filter (fun t => t.id != a)) _ (Nat.mod_lt r2 hpos))).2
      exact bne_iff_ne.mp this
  · intro t hqe hae
    subst hqe
    subst hae
    have hfil : [t].filter (fun t2 => t2.id != t.id) = [] := by
      simp [List.filter_cons]
    constructor
    · unfold nextTrackId
      dsimp only
      rw [if_pos rfl, dif_neg (by rw [hfil]; simp)]
    · unfold prevTrackId
      dsimp only
      rw [if_pos rfl, dif_neg (by rw [hfil]; simp)]

/-- Witness: C5 at the two-member queue [a, b] with active a, and at the
singleton queue [a]. -/
theorem shuffle_no_immediate_repeat_witness :
    (nextTrackId true [trackA, trackB] "a" 0 ≠ "a" ∧
      prevTrackId true [trackA, trackB] "a" 1 ≠ "a") ∧
    (nextTrackId true [trackA] "a" 7 = "a" ∧ prevTrackId true [trackA] "a" 9 = "a") :=
  ⟨(shuffle_no_immediate_repeat [trackA, trackB] "a" 0 1).1 (by decide) (by decide) (by decide),
    (shuffle_no_immediate_repeat [trackA] "a" 7 9).2 trackA rfl rfl⟩

/-- C6: with shuffle off, an active track contained in a non-empty distinct-id
queue and at most 3s elapsed, next() followed by previous() returns the
cursor to the original track, including across the wrap-around at the end of
the queue. -/
theorem next_previous_roundtrip (r r2 : Nat) (s : AppState) (a : String)
    (hsh : s.isShuffle = false) (ha : s.activeTrackId = some a)
    (hq : s.currentQueue ≠ [])
    (hnd : (s.currentQueue.map Track.id).Nodup)
    (hmem : a ∈ s.currentQueue.map Track.id)
    (hel : s.audioCurrentTime ≤ 3) :
    ((handlePrevious r2 (handleNext r s).1).1).activeTrackId = some a := by
  have h0 : ¬(s.currentQueue.length = 0) := by
    have := List.length_pos.mpr hq
    omega
  set nid := nextTrackId s.isShuffle s.currentQueue a r with hnid
  have hnmem : nid ∈ s.currentQueue.map Track.id := nextTrackId_mem _ _ _ _ hq
  obtain ⟨hact, hqueue, hshuf, haudio, _, _, _⟩ :=
    handleTrackSelect_fields nid s hq hnmem
  have hnext1 : (handleNext r s).1 = (handleTrackSelect nid none s).1 := by
    unfold handleNext
    rw [ha]
    dsimp only
    rw [if_neg h0]
  have hprev : prevTrackId ((handleTrackSelect nid none s).1).isShuffle
      ((handleTrackSelect nid none s).1).currentQueue nid r2 = a := by
    rw [hshuf, hqueue, hsh, hnid, hsh]
    exact next_prev_id_roundtrip _ _ _ _ hnd hmem
  have h02 : ¬(((handleTrackSelect nid none s).1).currentQueue.length = 0) := by
    rw [hqueue]
    exact h0
  have hel2 : ¬(3 < ((handleTrackSelect nid none s).1).audioCurrentTime) := by
    rw [haudio]
    exact not_lt.mpr hel
  have hmem2 : a ∈ ((handleTrackSelect nid none s).1).currentQueue.map Track.id := by
    rw [hqueue]
    exact hmem
  have hq2 : ((handleTrackSelect nid none s).1).currentQueue ≠ [] := by
    rw [hqueue]
    exact hq
  rw [hnext1]
  unfold handlePrevious
  rw [hact]
  dsimp only
  rw [if_neg h02, if_neg hel2, hprev]
  exact (handleTrackSelect_fields a _ hq2 hmem2).1

/-- Witness: C6 at the running state with 2s elapsed, queue [a, b, c], active a. -/
theorem next_previous_roundtrip_witness :
    ((handlePrevious 1 (handleNext 0 earlyState).1).1).activeTrackId = some "a" :=
  next_previous_roundtrip 0 1 earlyState "a" (by decide) (by decide) (by decide) (by decide)
    (by decide) (by decide)

/-- C10: for any non-empty queue and any shuffle setting, when next() or
previous() advances (elapsed at most 3s for previous), the new active track
id is a member of the current queue, even when the previously active id is
absent from it. -/
theorem advance_selects_queue_member (r r2 : Nat) (s : AppState) (a : String)
    (ha : s.activeTrackId = some a) (hq : s.currentQueue ≠ [])
    (hel : s.audioCurrentTime ≤ 3) :
    (∃ nid, ((handleNext r s).1).activeTrackId = some nid ∧
      nid ∈ s.currentQueue.map Track.id) ∧
    (∃ pid, ((handlePrevious r2 s).1).activeTrackId = some pid ∧
      pid ∈ s.currentQueue.map Track.id) := by
  have h0 : ¬(s.currentQueue.length = 0) := by
    have := List.length_pos.mpr hq
    omega
  constructor
  · have hnmem := nextTrackId_mem s.isShuffle s.currentQueue a r hq
    refine ⟨nextTrackId s.isShuffle s.currentQueue a r, ?_, hnmem⟩
    have h1 : (handleNext r s).1 =
        (handleTrackSelect (nextTrackId s.isShuffle s.currentQueue a r) none s).1 := by
      unfold handleNext
      rw [ha]
      dsimp only
      rw [if_neg h0]
    rw [h1]
    exact (handleTrackSelect_fields _ s hq hnmem).1
  · have hpmem := prevTrackId_mem s.isShuffle s.currentQueue a r2 hq
    refine ⟨prevTrackId s.isShuffle s.currentQueue a r2, ?_, hpmem⟩
    have h1 : (handlePrevious r2 s).1 =
        (handleTrackSelect (prevTrackId s.isShuffle s.currentQueue a r2) none s).1 := by
      unfold handlePrevious
      rw [ha]
      dsimp only
      rw [if_neg h0, if_neg (not_lt.mpr hel)]
    rw [h1]
    exact (handleTrackSelect_fields _ s hq hpmem).1

/-- Witness: C10 at the running state with 2s elapsed. -/
theorem advance_selects_queue_member_witness :
    (∃ nid, ((handleNext 0 earlyState).1).activeTrackId = some nid ∧
      nid ∈ earlyState.currentQueue.map Track.id) ∧
    (∃ pid, ((handlePrevious 0 earlyState).1).activeTrackId = some pid ∧
      pid ∈ earlyState.currentQueue.map Track.id) :=
  advance_selects_queue_member 0 0 earlyState "a" (by decide) (by decide) (by decide)

end StageMusic
